import Mathlib

/-
  Verification development for the com.qwirx.data library
  (Datasource / SimpleDatasource in one source file, Cursor in Cursor.js).

  The JavaScript code is shallowly embedded below:
  * field values are modelled by `JsVal` (undefined, null, integers and
    strings; ToNumber on strings is modelled for decimal integer literals,
    the only string/number comparisons occurring in this code base);
  * a record (plain JS object used as a map from column name to value) is an
    association list; an entry `(k, .undef)` is an owned property whose value
    is `undefined`, which JS distinguishes from an absent property;
  * exceptions are an explicit `Outcome`; since JS exceptions unwind without
    undoing earlier assignments, every stateful operation also returns the
    state as mutated up to the throw;
  * goog.events dispatch is synchronous; listeners of the two cancellable
    event types are modelled by the `Handlers` oracle (the aggregate vote of
    the registered listeners), and every dispatched event is appended to a
    trace.
-/

namespace QwirxData

/-- A JavaScript value as used by the data layer: undefined, null, an
integer number or a string. -/
inductive JsVal where
  | undef
  | jsNull
  | num (n : Int)
  | str (s : String)
deriving DecidableEq

/-- JS ToNumber on a string, restricted to decimal integer literals: the
empty (or all-blank) string converts to 0, otherwise the trimmed string is
parsed as a decimal integer; `none` stands for NaN. -/
def jsToNumber? (s : String) : Option Int :=
  if s.trim.isEmpty then some 0 else (s.trim).toInt?

/-- JS loose equality `==` on `JsVal`: undefined and null are mutually
equal and equal to nothing else; numbers and strings compare by value, and
a number compares to a string through ToNumber of the string. -/
def looseEq : JsVal → JsVal → Bool
  | .undef, .undef => true
  | .undef, .jsNull => true
  | .jsNull, .undef => true
  | .jsNull, .jsNull => true
  | .num a, .num b => decide (a = b)
  | .str a, .str b => decide (a = b)
  | .num a, .str s =>
    match jsToNumber? s with
    | some b => decide (a = b)
    | none => false
  | .str s, .num a =>
    match jsToNumber? s with
    | some b => decide (a = b)
    | none => false
  | _, _ => false

/-- A record: a JS object mapping column names to values.  An entry with
value `.undef` is an owned property set to `undefined`. -/
abbrev Record := List (String × JsVal)

/-- The own property names of a record (`for (k in obj)` order). -/
def keys (r : Record) : List String := r.map Prod.fst

/-- Property read `r[k]`: the value of the first entry named `k`, or
`undefined` when the record does not own `k`. -/
def getProp (r : Record) (k : String) : JsVal := (List.lookup k r).getD JsVal.undef

/-- `r.hasOwnProperty(k)`. -/
def hasProp (r : Record) (k : String) : Bool := (List.lookup k r).isSome

/-- Property write `r[k] = v`: overwrite an owned property, else append. -/
def setProp (r : Record) (k : String) (v : JsVal) : Record :=
  if hasProp r k then r.map (fun kv => if kv.fst = k then (k, v) else kv)
  else r ++ [(k, v)]

/-- The two-loop difference test of `Datasource.prototype.atomicReplace`:
some key of the actual record, or some key of the expected record, whose
value (with absent keys read as `undefined`) is loosely unequal between the
two records. -/
def recordsDiffer (expectedCurrentValues actualCurrentValues : Record) : Bool :=
  (keys actualCurrentValues).any (fun k =>
    !looseEq (getProp expectedCurrentValues k) (getProp actualCurrentValues k)) ||
  (keys expectedCurrentValues).any (fun k =>
    !looseEq (getProp expectedCurrentValues k) (getProp actualCurrentValues k))

/-- The two-loop dirtiness test of `Cursor.prototype.isDirty`: a key of the
new values absent from the old values or loosely unequal there, or a key of
the old values absent from the new values. -/
def recordsDirty (newValues oldValues : Record) : Bool :=
  (keys newValues).any (fun prop =>
    !hasProp oldValues prop ||
    !looseEq (getProp oldValues prop) (getProp newValues prop)) ||
  (keys oldValues).any (fun prop => !hasProp newValues prop)

/-- Spec-side formulation of the `atomicReplace` difference test, following
the specification text: a loose-equality difference at some key present in
either record. -/
def specKeyDiff (expected actual : Record) : Bool :=
  (keys expected ++ keys actual).any (fun k =>
    !looseEq (getProp expected k) (getProp actual k))

/-- Spec-side formulation of a per-key dirtiness difference between the
current values and the loaded values, following the specification text: the
key is present in only one side, or present in both with loosely unequal
values. -/
def specDirtyAt (newValues oldValues : Record) (k : String) : Prop :=
  hasProp newValues k ≠ hasProp oldValues k ∨
  (hasProp newValues k = true ∧ hasProp oldValues k = true ∧
    looseEq (getProp newValues k) (getProp oldValues k) = false)

/-- The exceptions thrown by the data layer (messages are kept as the static
part of the JS message). -/
inductive Exn where
  | noSuchRecord (msg : String)
  | concurrentModification (currentValues : Record)
  | illegalMove (msg : String)
  | noCurrentRecord (msg : String)
  | noSuchField (msg : String)
  | discardBlocked (msg : String)
  | overwriteBlocked
  | outOfFuel
deriving DecidableEq

/-- The result of a call: a normal value or a thrown exception.  `outOfFuel`
is an artifact of the bounded modelling of the (provably shallow) recursion
between `setPosition`, `maybeDiscard` and `discard`; it is unreachable from
the exported operations. -/
inductive Outcome (α : Type) where
  | ok (val : α)
  | thrown (e : Exn)
deriving DecidableEq

def Outcome.map (f : α → β) : Outcome α → Outcome β
  | .ok a => .ok (f a)
  | .thrown e => .thrown e

/-- Row events dispatched by a Datasource (`Datasource.Events`), carrying
the affected row indexes. -/
inductive DsEvent where
  | rowsInsert (rowIndexes : List Int)
  | rowsUpdate (rowIndexes : List Int)
  | rowsDelete (rowIndexes : List Int)
deriving DecidableEq

/-- A column definition `{name, caption}`. -/
structure Column where
  name : String
  caption : String
deriving DecidableEq

/-- The array-backed `com.qwirx.data.SimpleDatasource`: a column schema and
an ordered sequence of records. -/
structure SimpleDatasource where
  columns : List Column
  data : List Record
deriving DecidableEq

/-- The outcome, final datasource state (as mutated up to a throw) and
dispatched events of a datasource operation. -/
structure DsResult (α : Type) where
  out : Outcome α
  ds : SimpleDatasource
  events : List DsEvent
deriving DecidableEq

def SimpleDatasource.getColumns (ds : SimpleDatasource) : List Column := ds.columns

def SimpleDatasource.getCount (ds : SimpleDatasource) : Int := ds.data.length

/-- `Datasource.prototype.assertValidRow` with an explicit maximum index
(the JS default for the omitted argument is `data_.length - 1`). -/
def SimpleDatasource.assertValidRow (ds : SimpleDatasource) (rowIndex maxIndex : Int) :
    Option Exn :=
  if rowIndex < 0 then some (.noSuchRecord "Impossible row index")
  else if rowIndex > maxIndex then some (.noSuchRecord "Row index is greater than allowed")
  else none

/-- `SimpleDatasource.prototype.get`: a (defensive copy of the) record at
the index, after validation. -/
def SimpleDatasource.get (ds : SimpleDatasource) (rowIndex : Int) : Outcome Record :=
  match ds.assertValidRow rowIndex (ds.getCount - 1) with
  | some e => .thrown e
  | none => .ok (ds.data.getD rowIndex.toNat [])

/-- `SimpleDatasource.prototype.insert`: splice the record in at the index
(0 up to the row count inclusive) and dispatch `ROWS_INSERT`. -/
def SimpleDatasource.insert (ds : SimpleDatasource) (rowIndex : Int) (newRecord : Record) :
    DsResult Unit :=
  match ds.assertValidRow rowIndex ds.getCount with
  | some e => ⟨.thrown e, ds, []⟩
  | none =>
    ⟨.ok (),
     { ds with data := ds.data.take rowIndex.toNat ++ [newRecord] ++ ds.data.drop rowIndex.toNat },
     [.rowsInsert [rowIndex]]⟩

/-- `SimpleDatasource.prototype.add`: insert at the end, returning the new
row index. -/
def SimpleDatasource.add (ds : SimpleDatasource) (newRecord : Record) : DsResult Int :=
  let pos := ds.getCount
  let r := ds.insert pos newRecord
  ⟨r.out.map (fun _ => pos), r.ds, r.events⟩

/-- `SimpleDatasource.prototype.replace`: overwrite the record at the index
and dispatch `ROWS_UPDATE`. -/
def SimpleDatasource.replace (ds : SimpleDatasource) (rowIndex : Int) (newRecord : Record) :
    DsResult Unit :=
  match ds.assertValidRow rowIndex (ds.getCount - 1) with
  | some e => ⟨.thrown e, ds, []⟩
  | none =>
    ⟨.ok (),
     { ds with data := ds.data.take rowIndex.toNat ++ [newRecord] ++ ds.data.drop (rowIndex.toNat + 1) },
     [.rowsUpdate [rowIndex]]⟩

/-- `SimpleDatasource.prototype.remove`: delete the record at the index and
dispatch `ROWS_DELETE`. -/
def SimpleDatasource.remove (ds : SimpleDatasource) (rowIndex : Int) : DsResult Unit :=
  match ds.assertValidRow rowIndex (ds.getCount - 1) with
  | some e => ⟨.thrown e, ds, []⟩
  | none =>
    ⟨.ok (),
     { ds with data := ds.data.take rowIndex.toNat ++ ds.data.drop (rowIndex.toNat + 1) },
     [.rowsDelete [rowIndex]]⟩

/-- `Datasource.prototype.atomicReplace`: after validation, compare the
actual record at the index with the expected values (two loops, loose
equality, absent keys read as `undefined`); on any difference throw
`ConcurrentModification` carrying the actual record, otherwise delegate to
`replace`. -/
def SimpleDatasource.atomicReplace (ds : SimpleDatasource) (rowIndex : Int)
    (expectedCurrentValues newValues : Record) : DsResult Unit :=
  match ds.assertValidRow rowIndex (ds.getCount - 1) with
  | some e => ⟨.thrown e, ds, []⟩
  | none =>
    match ds.get rowIndex with
    | .thrown e => ⟨.thrown e, ds, []⟩
    | .ok actualCurrentValues =>
      if recordsDiffer expectedCurrentValues actualCurrentValues then
        ⟨.thrown (.concurrentModification actualCurrentValues), ds, []⟩
      else
        ds.replace rowIndex newValues

/-- A cursor position: the sentinels BOF, EOF and NEW, or an integer row
index (an `Int`, since intermediate targets may be negative). -/
inductive Pos where
  | bof
  | eof
  | new
  | idx (i : Int)
deriving DecidableEq

/-- The events dispatched on a Cursor (`Cursor.Events`), with the payload of
the corresponding `RowEvent` (position) or `MovementEvent` (position and new
position; an absent new position is `none`).  Datasource events observed
during a cursor operation appear in the same trace as `dsEvent`. -/
inductive CursorEvent where
  | moveTo (oldPosition newPosition : Pos)
  | moveForward (numRows : Int) (newPosition : Pos)
  | moveFirstEvent (newPosition : Pos)
  | moveLastEvent (newPosition : Pos)
  | createNew (newPosition : Pos)
  | beforeDiscard (position : Pos) (newPosition : Option Pos)
  | discardEvent (position : Pos) (newPosition : Option Pos)
  | beforeOverwrite (position : Pos) (newPosition : Option Pos)
  | overwrite (position : Pos)
  | saveEvent (position : Pos)
  | modified (position : Pos)
  | dsEvent (e : DsEvent)
deriving DecidableEq

/-- The aggregate vote of the listeners registered for the two cancellable
cursor events, as a function of the event payload: `true` means no listener
cancelled (dispatchEvent returned true), `false` means cancelled. -/
structure Handlers where
  beforeDiscard : Pos → Option Pos → Bool
  beforeOverwrite : Pos → Option Pos → Bool

/-- The mutable state of a `com.qwirx.data.Cursor`: its position and the
working copy / loaded snapshot of the current record (`none` models the JS
`null`/`undefined` state at BOF/EOF and at construction). -/
structure Cursor where
  position : Pos
  currentRecordValues : Option Record
  currentRecordAsLoaded : Option Record
deriving DecidableEq

/-- A freshly constructed Cursor: at BOF, with no record loaded.  (The JS
constructor also subscribes to the ROWS_INSERT events of the datasource; that
subscription is modelled by `dsInsertAndNotify` below.) -/
def Cursor.start : Cursor :=
  { position := .bof, currentRecordValues := none, currentRecordAsLoaded := none }

/-- The outcome, final datasource and cursor state (as mutated up to a
throw) and dispatched events of a cursor operation. -/
structure StepResult (α : Type) where
  out : Outcome α
  ds : SimpleDatasource
  cursor : Cursor
  events : List CursorEvent
deriving DecidableEq

/-- `Cursor.prototype.getRowCount`: the count of the datasource, or null when
unknown.  A `SimpleDatasource` always knows its count; the `none` branches
kept in the movement code below mirror the JS null checks and are dead for
this datasource. -/
def Cursor.getRowCount (ds : SimpleDatasource) : Option Int := some ds.getCount

/-- `Cursor.prototype.assertCurrentRecord`: at BOF or EOF there is no
current record. -/
def Cursor.assertCurrentRecord (c : Cursor) : Option Exn :=
  match c.position with
  | .bof => some (.noCurrentRecord "The cursor is at BOF or EOF which is not a valid record")
  | .eof => some (.noCurrentRecord "The cursor is at BOF or EOF which is not a valid record")
  | _ => none

/-- `Cursor.prototype.assertValidPosition`: a sentinel, or an index between
0 and the row count (exclusive) when the count is known. -/
def Cursor.assertValidPosition (ds : SimpleDatasource) (position : Pos) : Option Exn :=
  match position with
  | .bof => none
  | .eof => none
  | .new => none
  | .idx i =>
    match Cursor.getRowCount ds with
    | none => if 0 ≤ i then none else some (.illegalMove "Invalid position")
    | some rowCount =>
      if 0 ≤ i ∧ i < rowCount then none else some (.illegalMove "Invalid position")

/-- The copy loop of `reloadRecord`: project a record onto the column
schema — every column name becomes an owned property whose value is the
value from the record (or `undefined` when absent). -/
def projectColumns (columns : List Column) (record : Record) : Record :=
  columns.map (fun col => (col.name, getProp record col.name))

/-- `Cursor.prototype.reloadRecord`: reset the working copy and the loaded
snapshot from the datasource — unset at BOF/EOF, empty at NEW, else the
record at the position projected onto the column schema. -/
def Cursor.reloadRecord (ds : SimpleDatasource) (c : Cursor) : Outcome Unit × Cursor :=
  match c.position with
  | .bof => (.ok (), { c with currentRecordValues := none, currentRecordAsLoaded := none })
  | .eof => (.ok (), { c with currentRecordValues := none, currentRecordAsLoaded := none })
  | .new => (.ok (), { c with currentRecordValues := some [], currentRecordAsLoaded := some [] })
  | .idx i =>
    match ds.get i with
    | .thrown e =>
      (.thrown e, { c with currentRecordValues := some [], currentRecordAsLoaded := some [] })
    | .ok record =>
      (.ok (), { c with currentRecordValues := some (projectColumns ds.columns record),
                        currentRecordAsLoaded := some (projectColumns ds.columns record) })

/-- `Cursor.prototype.moveInternal`: assign the position first, then reload
the record, then dispatch the non-cancellable MOVE_TO. -/
def Cursor.moveInternal (ds : SimpleDatasource) (c : Cursor) (newPosition : Pos) :
    StepResult Unit :=
  let oldPosition := c.position
  match Cursor.reloadRecord ds { c with position := newPosition } with
  | (.thrown e, c2) => ⟨.thrown e, ds, c2, []⟩
  | (.ok _, c2) => ⟨.ok (), ds, c2, [.moveTo oldPosition newPosition]⟩

/-- `Cursor.prototype.isDirty`: false when no record is loaded, else the
two-loop record diff of the working copy against the loaded snapshot. -/
def Cursor.isDirty (c : Cursor) : Bool :=
  match c.currentRecordValues with
  | none => false
  | some newValues => recordsDirty newValues (c.currentRecordAsLoaded.getD [])

/-- The dispatch targets of the mutually recursive trio `setPosition`,
`maybeDiscard`, `discard`. -/
inductive CursorCall where
  | setPositionCall (newPosition : Pos)
  | maybeDiscardCall (newPosition : Option Pos)
  | discardCall (newPosition : Option Pos)

/-- One engine for `setPosition` / `maybeDiscard` / `discard`, which in JS
are mutually recursive (discarding an edited NEW record repositions the
cursor via `setPosition`).  The recursion is provably shallow — after
`discard` resets the working copy the cursor is no longer dirty — so it is
modelled with a fuel bound; the exported wrappers use a fuel that is never
exhausted (`outOfFuel` is unreachable from them). -/
def Cursor.runCall : Nat → Handlers → SimpleDatasource → Cursor → CursorCall →
    StepResult Bool
  | 0, _, ds, c, _ => ⟨.thrown .outOfFuel, ds, c, []⟩
  | fuel + 1, h, ds, c, call =>
    match call with
    | .setPositionCall newPosition =>
      -- Cursor.prototype.setPosition: validate, run the discard protocol,
      -- then move (if the position actually changes).
      match Cursor.assertValidPosition ds newPosition with
      | some e => ⟨.thrown e, ds, c, []⟩
      | none =>
        let r := Cursor.runCall fuel h ds c (.maybeDiscardCall (some newPosition))
        match r.out with
        | .thrown e => ⟨.thrown e, r.ds, r.cursor, r.events⟩
        | .ok _ =>
          if newPosition ≠ r.cursor.position then
            let m := Cursor.moveInternal r.ds r.cursor newPosition
            ⟨m.out.map (fun _ => true), m.ds, m.cursor, r.events ++ m.events⟩
          else ⟨.ok true, r.ds, r.cursor, r.events⟩
    | .maybeDiscardCall newPosition =>
      -- Cursor.prototype.maybeDiscard: nothing to do unless dirty; else
      -- dispatch the cancellable BEFORE_DISCARD, throw DiscardBlocked when
      -- cancelled, else discard.
      if c.isDirty then
        match c.assertCurrentRecord with
        | some e => ⟨.thrown e, ds, c, []⟩
        | none =>
          if h.beforeDiscard c.position newPosition then
            let r := Cursor.runCall fuel h ds c (.discardCall none)
            match r.out with
            | .thrown e =>
              ⟨.thrown e, r.ds, r.cursor, .beforeDiscard c.position newPosition :: r.events⟩
            | .ok _ =>
              ⟨.ok true, r.ds, r.cursor, .beforeDiscard c.position newPosition :: r.events⟩
          else
            ⟨.thrown (.discardBlocked "The BEFORE_DISCARD event was cancelled"), ds, c,
             [.beforeDiscard c.position newPosition]⟩
      else ⟨.ok true, ds, c, []⟩
    | .discardCall newPosition =>
      -- Cursor.prototype.discard: assert a current record; no-op unless
      -- dirty; else reset the working copy to a copy of the loaded
      -- snapshot, dispatch DISCARD, collapse a NEW position onto
      -- rowCount - 1 via setPosition, and dispatch MODIFIED.
      match c.assertCurrentRecord with
      | some e => ⟨.thrown e, ds, c, []⟩
      | none =>
        if c.isDirty then
          let c1 := { c with currentRecordValues := some (c.currentRecordAsLoaded.getD []) }
          if c1.position = .new then
            match Cursor.getRowCount ds with
            | none =>
              -- JS would compute the NaN target null - 1, which fails
              -- assertValidPosition inside setPosition.
              ⟨.thrown (.illegalMove "Invalid position"), ds, c1,
               [.discardEvent c.position newPosition]⟩
            | some rowCount =>
              let r := Cursor.runCall fuel h ds c1 (.setPositionCall (.idx (rowCount - 1)))
              match r.out with
              | .thrown e =>
                ⟨.thrown e, r.ds, r.cursor, .discardEvent c.position newPosition :: r.events⟩
              | .ok _ =>
                ⟨.ok true, r.ds, r.cursor,
                 .discardEvent c.position newPosition ::
                   (r.events ++ [.modified r.cursor.position])⟩
          else
            ⟨.ok true, ds, c1,
             [.discardEvent c.position newPosition, .modified c1.position]⟩
        else ⟨.ok true, ds, c, []⟩

/-- Fuel used by the exported wrappers; ample for the shallow recursion
(the deepest chain is setPosition → maybeDiscard → discard → setPosition →
maybeDiscard, which stops because the cursor is clean after a discard). -/
def cursorFuel : Nat := 9

/-- `Cursor.prototype.setPosition`. -/
def Cursor.setPosition (h : Handlers) (ds : SimpleDatasource) (c : Cursor)
    (newPosition : Pos) : StepResult Unit :=
  let r := Cursor.runCall cursorFuel h ds c (.setPositionCall newPosition)
  ⟨r.out.map (fun _ => ()), r.ds, r.cursor, r.events⟩

/-- `Cursor.prototype.maybeDiscard`. -/
def Cursor.maybeDiscard (h : Handlers) (ds : SimpleDatasource) (c : Cursor)
    (newPosition : Option Pos) : StepResult Bool :=
  Cursor.runCall cursorFuel h ds c (.maybeDiscardCall newPosition)

/-- `Cursor.prototype.discard`. -/
def Cursor.discard (h : Handlers) (ds : SimpleDatasource) (c : Cursor)
    (newPosition : Option Pos) : StepResult Unit :=
  let r := Cursor.runCall cursorFuel h ds c (.discardCall newPosition)
  ⟨r.out.map (fun _ => ()), r.ds, r.cursor, r.events⟩

/-- The first stage of `Cursor.prototype.moveRelative`: resolve the raw
target position from the current position and the distance, or throw
IllegalMove (backward from BOF; forward from EOF/NEW; any move from EOF/NEW
with an unknown row count). -/
def Cursor.resolveMoveTarget (ds : SimpleDatasource) (c : Cursor) (numRowsToMove : Int) :
    Outcome Pos :=
  if numRowsToMove = 0 then .ok c.position
  else
    match c.position with
    | .bof =>
      if numRowsToMove < 0 then
        .thrown (.illegalMove "Currently at BOF; there is no previous record")
      else .ok (.idx (numRowsToMove - 1))
    | .eof =>
      if numRowsToMove > 0 then
        .thrown (.illegalMove "Currently at EOF; there is no next record")
      else
        match Cursor.getRowCount ds with
        | none => .thrown (.illegalMove "Currently at EOF and row count is unknown")
        | some rowCount => .ok (.idx (rowCount + numRowsToMove))
    | .new =>
      if numRowsToMove > 0 then
        .thrown (.illegalMove "Currently at EOF; there is no next record")
      else
        match Cursor.getRowCount ds with
        | none => .thrown (.illegalMove "Currently at EOF and row count is unknown")
        | some rowCount => .ok (.idx (rowCount + numRowsToMove))
    | .idx i => .ok (.idx (i + numRowsToMove))

/-- The second stage of `Cursor.prototype.moveRelative`: clamp an integer
target — negative to BOF, at or beyond a known row count to EOF; sentinels
pass through unchanged. -/
def clampTarget (ds : SimpleDatasource) (target : Pos) : Pos :=
  match target with
  | .idx t =>
    if t < 0 then .bof
    else
      match Cursor.getRowCount ds with
      | none => .idx t
      | some rowCount => if t ≥ rowCount then .eof else .idx t
  | p => p

/-- `Cursor.prototype.moveRelative`: resolve the target from the current
position and the distance, clamp an integer target into BOF/EOF, validate,
run the discard protocol, dispatch MOVE_FORWARD, and delegate the actual
move to `setPosition`.  Returns true on success. -/
def Cursor.moveRelative (h : Handlers) (ds : SimpleDatasource) (c : Cursor)
    (numRowsToMove : Int) : StepResult Bool :=
  match Cursor.resolveMoveTarget ds c numRowsToMove with
  | .thrown e => ⟨.thrown e, ds, c, []⟩
  | .ok target =>
    let newPosition : Pos := clampTarget ds target
    match Cursor.assertValidPosition ds newPosition with
    | some e => ⟨.thrown e, ds, c, []⟩
    | none =>
      let r1 := Cursor.maybeDiscard h ds c (some newPosition)
      match r1.out with
      | .thrown e => ⟨.thrown e, r1.ds, r1.cursor, r1.events⟩
      | .ok _ =>
        let evs := r1.events ++ [CursorEvent.moveForward numRowsToMove newPosition]
        let r2 := Cursor.setPosition h r1.ds r1.cursor newPosition
        match r2.out with
        | .thrown e => ⟨.thrown e, r2.ds, r2.cursor, evs ++ r2.events⟩
        | .ok _ => ⟨.ok true, r2.ds, r2.cursor, evs ++ r2.events⟩

/-- `Cursor.prototype.moveFirst`: target 0 (EOF when the count is known to
be 0), dispatch MOVE_FIRST, then `setPosition`. -/
def Cursor.moveFirst (h : Handlers) (ds : SimpleDatasource) (c : Cursor) : StepResult Unit :=
  let newPosition : Pos :=
    match Cursor.getRowCount ds with
    | none => .idx 0
    | some rowCount => if rowCount = 0 then .eof else .idx 0
  let r := Cursor.setPosition h ds c newPosition
  ⟨r.out, r.ds, r.cursor, .moveFirstEvent newPosition :: r.events⟩

/-- `Cursor.prototype.moveLast`: illegal when the count is unknown; target
rowCount - 1, dispatch MOVE_LAST, then `setPosition`. -/
def Cursor.moveLast (h : Handlers) (ds : SimpleDatasource) (c : Cursor) : StepResult Unit :=
  match Cursor.getRowCount ds with
  | none => ⟨.thrown (.illegalMove "Cannot move to end with an unknown number of rows"), ds, c, []⟩
  | some rowCount =>
    let newPosition := Pos.idx (rowCount - 1)
    let r := Cursor.setPosition h ds c newPosition
    ⟨r.out, r.ds, r.cursor, .moveLastEvent newPosition :: r.events⟩

/-- `Cursor.prototype.moveNew`: dispatch CREATE_NEW, then `setPosition` to
the NEW sentinel. -/
def Cursor.moveNew (h : Handlers) (ds : SimpleDatasource) (c : Cursor) : StepResult Unit :=
  let r := Cursor.setPosition h ds c .new
  ⟨r.out, r.ds, r.cursor, .createNew Pos.new :: r.events⟩

/-- `Cursor.prototype.handleDataSourceRowInsert`: bump the integer position
once for every affected index at or below it (the JS relational comparison
against a sentinel string is false, so sentinels are unaffected), and move
internally — without the discard protocol — if the position changed. -/
def Cursor.handleDataSourceRowInsert (ds : SimpleDatasource) (c : Cursor)
    (affectedRows : List Int) : StepResult Unit :=
  let oldPosition := c.position
  let newPosition := affectedRows.foldl
    (fun p rowIndex =>
      match p with
      | Pos.idx i => if rowIndex ≤ i then Pos.idx (i + 1) else Pos.idx i
      | p => p)
    oldPosition
  if newPosition ≠ oldPosition then Cursor.moveInternal ds c newPosition
  else ⟨.ok (), ds, c, []⟩

/-- An insertion performed on the shared datasource by another actor while
this cursor is subscribed (the constructor registers
`handleDataSourceRowInsert` for ROWS_INSERT): perform the insert, then
deliver the event to the cursor. -/
def Cursor.dsInsertAndNotify (ds : SimpleDatasource) (c : Cursor) (rowIndex : Int)
    (newRecord : Record) : StepResult Unit :=
  let r := ds.insert rowIndex newRecord
  match r.out with
  | .thrown e => ⟨.thrown e, r.ds, c, r.events.map .dsEvent⟩
  | .ok _ =>
    let hr := Cursor.handleDataSourceRowInsert r.ds c [rowIndex]
    ⟨hr.out, hr.ds, hr.cursor, r.events.map .dsEvent ++ hr.events⟩

/-- `Cursor.prototype.assertValidField`: the field must be a column name. -/
def Cursor.assertValidField (ds : SimpleDatasource) (fieldName : String) : Option Exn :=
  if ds.columns.any (fun col => col.name = fieldName) then none
  else some (.noSuchField "The field does not exist in this cursor")

/-- `Cursor.prototype.setFieldValue`: requires a current record and a valid
column; assigns the working copy and dispatches MODIFIED. -/
def Cursor.setFieldValue (ds : SimpleDatasource) (c : Cursor) (fieldName : String)
    (newValue : JsVal) : StepResult Unit :=
  match c.assertCurrentRecord with
  | some e => ⟨.thrown e, ds, c, []⟩
  | none =>
    match Cursor.assertValidField ds fieldName with
    | some e => ⟨.thrown e, ds, c, []⟩
    | none =>
      let c1 := { c with
        currentRecordValues := some (setProp (c.currentRecordValues.getD []) fieldName newValue) }
      ⟨.ok (), ds, c1, [.modified c1.position]⟩

/-- `Cursor.prototype.getLoadedValues`: a copy of the loaded snapshot;
requires a current record. -/
def Cursor.getLoadedValues (c : Cursor) : Outcome Record :=
  match c.assertCurrentRecord with
  | some e => .thrown e
  | none => .ok (c.currentRecordAsLoaded.getD [])

/-- `Cursor.prototype.getCurrentValues`: a copy of the working values;
requires a current record. -/
def Cursor.getCurrentValues (c : Cursor) : Outcome Record :=
  match c.assertCurrentRecord with
  | some e => .thrown e
  | none => .ok (c.currentRecordValues.getD [])

/-- The datasource-writing stage of `Cursor.prototype.save` (the branch on
NEW / forceOverwrite / atomicReplace, including the try/catch around
ConcurrentModification), returning the storage position of the saved
record. -/
def Cursor.saveToDatasource (h : Handlers) (ds : SimpleDatasource) (c : Cursor)
    (forceOverwrite : Bool) (attemptedPosition : Option Pos) : StepResult Pos :=
  match c.position with
  | .bof => ⟨.thrown (.noCurrentRecord "The cursor is at BOF or EOF which is not a valid record"), ds, c, []⟩
  | .eof => ⟨.thrown (.noCurrentRecord "The cursor is at BOF or EOF which is not a valid record"), ds, c, []⟩
  | .new =>
    let a := ds.add (c.currentRecordValues.getD [])
    match a.out with
    | .thrown e => ⟨.thrown e, a.ds, c, a.events.map .dsEvent⟩
    | .ok pos =>
      -- the ROWS_INSERT dispatched inside add() reaches the
      -- handleDataSourceRowInsert listener of this same cursor
      let hr := Cursor.handleDataSourceRowInsert a.ds c [pos]
      match hr.out with
      | .thrown e => ⟨.thrown e, hr.ds, hr.cursor, a.events.map .dsEvent ++ hr.events⟩
      | .ok _ => ⟨.ok (.idx pos), hr.ds, hr.cursor, a.events.map .dsEvent ++ hr.events⟩
  | .idx i =>
    if forceOverwrite then
      let r := ds.replace i (c.currentRecordValues.getD [])
      match r.out with
      | .thrown e => ⟨.thrown e, r.ds, c, r.events.map .dsEvent⟩
      | .ok _ => ⟨.ok (.idx i), r.ds, c, r.events.map .dsEvent⟩
    else
      let r := ds.atomicReplace i (c.currentRecordAsLoaded.getD [])
        (c.currentRecordValues.getD [])
      match r.out with
      | .ok _ => ⟨.ok (.idx i), r.ds, c, r.events.map .dsEvent⟩
      | .thrown (.concurrentModification _) =>
        let ev := CursorEvent.beforeOverwrite c.position attemptedPosition
        if h.beforeOverwrite c.position attemptedPosition then
          let r2 := r.ds.replace i (c.currentRecordValues.getD [])
          match r2.out with
          | .thrown e => ⟨.thrown e, r2.ds, c, ev :: r2.events.map .dsEvent⟩
          | .ok _ =>
            ⟨.ok (.idx i), r2.ds, c,
             ev :: (r2.events.map .dsEvent ++ [CursorEvent.overwrite c.position])⟩
        else ⟨.thrown .overwriteBlocked, r.ds, c, [ev]⟩
      | .thrown e => ⟨.thrown e, r.ds, c, r.events.map .dsEvent⟩

/-- `Cursor.prototype.save`: from NEW, add the working copy to the
datasource (whose ROWS_INSERT is delivered back to this cursor); with
forceOverwrite, replace unconditionally; otherwise `atomicReplace` against
the loaded snapshot, handling ConcurrentModification with the cancellable
BEFORE_OVERWRITE / forced replace / OVERWRITE protocol.  Then reload,
dispatch SAVE carrying the storage position, and move there unless
suppressed or already there. -/
def Cursor.save (h : Handlers) (ds : SimpleDatasource) (c : Cursor)
    (suppressMoveToEvent forceOverwrite : Bool) (attemptedPosition : Option Pos) :
    StepResult Pos :=
  match c.assertCurrentRecord with
  | some e => ⟨.thrown e, ds, c, []⟩
  | none =>
    let branch := Cursor.saveToDatasource h ds c forceOverwrite attemptedPosition
    match branch.out with
    | .thrown e => ⟨.thrown e, branch.ds, branch.cursor, branch.events⟩
    | .ok newPosition =>
      match Cursor.reloadRecord branch.ds branch.cursor with
      | (.thrown e, c2) => ⟨.thrown e, branch.ds, c2, branch.events⟩
      | (.ok _, c2) =>
        let evs := branch.events ++ [CursorEvent.saveEvent newPosition]
        if newPosition ≠ c2.position ∧ suppressMoveToEvent = false then
          let m := Cursor.moveInternal branch.ds c2 newPosition
          match m.out with
          | .thrown e => ⟨.thrown e, m.ds, m.cursor, evs ++ m.events⟩
          | .ok _ => ⟨.ok newPosition, m.ds, m.cursor, evs ++ m.events⟩
        else ⟨.ok newPosition, branch.ds, c2, evs⟩

/-
  Concrete instances: handler environments and the datasource of the test
  suite (columns id/name, rows John, James, Peter), together with cursor
  states reached from it by the operations above.
-/

/-- All listeners allow both cancellable events. -/
def hAllow : Handlers := ⟨fun _ _ => true, fun _ _ => true⟩

/-- A listener cancels BEFORE_DISCARD. -/
def hBlockDiscard : Handlers := ⟨fun _ _ => false, fun _ _ => true⟩

/-- A listener cancels BEFORE_OVERWRITE. -/
def hBlockOverwrite : Handlers := ⟨fun _ _ => true, fun _ _ => false⟩

def tds : SimpleDatasource :=
  ⟨[⟨"id", "ID"⟩, ⟨"name", "Name"⟩],
   [[("id", .num 1), ("name", .str "John")],
    [("id", .num 2), ("name", .str "James")],
    [("id", .num 5), ("name", .str "Peter")]]⟩

/-- A cursor moved to row 1 (`James`) of `tds`. -/
def tCursor1 : Cursor := (Cursor.setPosition hAllow tds Cursor.start (.idx 1)).cursor

/-- `tCursor1` after `setFieldValue("name", "Stuart")` (dirty). -/
def tCursor1Stuart : Cursor :=
  (Cursor.setFieldValue tds tCursor1 "name" (.str "Stuart")).cursor

/-- `tCursor1` after `setFieldValue("name", "Jonathan")` (dirty). -/
def tCursor1Jonathan : Cursor :=
  (Cursor.setFieldValue tds tCursor1 "name" (.str "Jonathan")).cursor

/-- The datasource after the first cursor saved `Stuart` into row 1. -/
def tDsAfterStuart : SimpleDatasource :=
  (Cursor.save hAllow tds tCursor1Stuart false false none).ds

/-- A cursor moved to NEW on `tds`. -/
def tCursorNew : Cursor := (Cursor.setPosition hAllow tds Cursor.start .new).cursor

/-- `tCursorNew` with two fields set (dirty). -/
def tCursorNewDirty : Cursor :=
  (Cursor.setFieldValue tds
    (Cursor.setFieldValue tds tCursorNew "id" (.str "foo")).cursor "name" (.str "bar")).cursor

/-- An empty datasource with the same schema. -/
def emptyDs : SimpleDatasource := ⟨[⟨"id", "ID"⟩, ⟨"name", "Name"⟩], []⟩

/-- A dirty cursor at NEW over the empty datasource. -/
def emptyNewDirty : Cursor :=
  (Cursor.setFieldValue emptyDs
    (Cursor.setPosition hAllow emptyDs Cursor.start .new).cursor "id" (.str "x")).cursor

/-
  Basic facts about loose equality and the record diffs.
-/

theorem looseEq_refl (v : JsVal) : looseEq v v = true := by
  cases v <;> simp [looseEq]

theorem looseEq_symm (a b : JsVal) : looseEq a b = looseEq b a := by
  cases a <;> cases b <;> simp [looseEq, eq_comm]

theorem hasProp_iff_mem (r : Record) (k : String) : hasProp r k = true ↔ k ∈ keys r := by
  induction r with
  | nil => simp [hasProp, keys, List.lookup]
  | cons kv t ih =>
    obtain ⟨a, b⟩ := kv
    by_cases hka : k = a
    · subst hka
      simp [hasProp, keys, List.lookup]
    · have hbeq : (k == a) = false := beq_eq_false_iff_ne.mpr hka
      simp only [hasProp, keys, List.lookup, hbeq, List.map_cons, List.mem_cons]
      rw [iff_iff_implies_and_implies]
      constructor
      · intro hs
        exact Or.inr ((ih).mp hs)
      · intro hm
        rcases hm with hm | hm
        · exact absurd hm hka
        · exact ih.mpr hm

theorem lookup_some_mem_keys {r : Record} {k : String} {v : JsVal}
    (h : List.lookup k r = some v) : k ∈ keys r :=
  (hasProp_iff_mem r k).mp (by simp [hasProp, h])

theorem getProp_of_not_hasProp {r : Record} {k : String} (h : hasProp r k = false) :
    getProp r k = JsVal.undef := by
  simp only [hasProp] at h
  have hn : List.lookup k r = none := Option.not_isSome_iff_eq_none.mp (by simp [h])
  rw [getProp, hn]
  rfl

theorem recordsDirty_refl (r : Record) : recordsDirty r r = false := by
  simp only [recordsDirty, Bool.or_eq_false_iff, List.any_eq_false]
  constructor
  · intro k hk
    have h1 : hasProp r k = true := (hasProp_iff_mem r k).mpr hk
    simp [h1, looseEq_refl]
  · intro k hk
    have h1 : hasProp r k = true := (hasProp_iff_mem r k).mpr hk
    simp [h1]

theorem recordsDiffer_eq_specKeyDiff (e a : Record) :
    recordsDiffer e a = specKeyDiff e a := by
  simp only [recordsDiffer, specKeyDiff, List.any_append]
  exact Bool.or_comm _ _

/-
  Basic facts about the datasource operations.
-/

theorem assertValidRow_none (ds : SimpleDatasource) {i maxIndex : Int}
    (h0 : 0 ≤ i) (hle : i ≤ maxIndex) : ds.assertValidRow i maxIndex = none := by
  unfold SimpleDatasource.assertValidRow
  rw [if_neg (by omega), if_neg (by omega)]

theorem get_valid (ds : SimpleDatasource) {i : Int} (h0 : 0 ≤ i) (hlt : i < ds.getCount) :
    ds.get i = .ok (ds.data.getD i.toNat []) := by
  unfold SimpleDatasource.get
  rw [assertValidRow_none ds h0 (by omega)]

theorem atomicReplace_valid (ds : SimpleDatasource) (i : Int) (e n : Record)
    (h0 : 0 ≤ i) (hlt : i < ds.getCount) :
    ds.atomicReplace i e n =
      (if recordsDiffer e (ds.data.getD i.toNat []) then
        ⟨.thrown (.concurrentModification (ds.data.getD i.toNat [])), ds, []⟩
      else ds.replace i n) := by
  unfold SimpleDatasource.atomicReplace
  rw [assertValidRow_none ds h0 (by omega), get_valid ds h0 hlt]

/-- C1: for every datasource, every valid index and every pair of records,
atomicReplace throws ConcurrentModification carrying the actual current
record and leaves the datasource unmutated (and dispatches nothing) exactly
when the symmetric per-key loose-equality diff between the expected record
and the actual record at the index is nonempty; with no difference it is
exactly replace. -/
theorem atomicReplace_diff_or_replace (ds : SimpleDatasource) (i : Int)
    (expected next : Record) (h0 : 0 ≤ i) (hlt : i < ds.getCount) :
    (specKeyDiff expected (ds.data.getD i.toNat []) = true →
      ds.atomicReplace i expected next =
        ⟨.thrown (.concurrentModification (ds.data.getD i.toNat [])), ds, []⟩) ∧
    (specKeyDiff expected (ds.data.getD i.toNat []) = false →
      ds.atomicReplace i expected next = ds.replace i next) := by
  rw [atomicReplace_valid ds i expected next h0 hlt, ← recordsDiffer_eq_specKeyDiff]
  constructor <;> intro hd <;> rw [hd]
  · rw [if_pos rfl]
  · rw [if_neg (by simp)]

/-- C1 witness. -/
theorem atomicReplace_diff_or_replace_witness :
    (0:Int) ≤ 0 ∧ (0:Int) < SimpleDatasource.getCount ⟨[⟨"a","A"⟩], [[("a", .num 1)]]⟩ ∧
    specKeyDiff [("a", .num 2)]
      ((SimpleDatasource.data ⟨[⟨"a","A"⟩], [[("a", .num 1)]]⟩).getD (0:Int).toNat []) = true ∧
    SimpleDatasource.atomicReplace ⟨[⟨"a","A"⟩], [[("a", .num 1)]]⟩ 0
        [("a", .num 2)] [("a", .num 3)] =
      ⟨.thrown (.concurrentModification [("a", .num 1)]),
       ⟨[⟨"a","A"⟩], [[("a", .num 1)]]⟩, []⟩ :=
  ⟨by decide, by decide, by decide,
   ((atomicReplace_diff_or_replace ⟨[⟨"a","A"⟩], [[("a", .num 1)]]⟩ 0
      [("a", .num 2)] [("a", .num 3)] (by decide) (by decide)).1 (by decide))⟩

/-- C10: the atomicReplace diff and the isDirty diff disagree on key presence:
if the expected record owns an extra key mapped to undefined or null that
the actual record does not own, and all other keys are loosely equal, then
atomicReplace performs the replacement with no ConcurrentModification,
while the Cursor dirtiness diff over the same pair of records reports
dirty. -/
theorem atomicReplace_vs_isDirty_key_presence (ds : SimpleDatasource) (i : Int)
    (expected next : Record) (k : String) (v : JsVal)
    (h0 : 0 ≤ i) (hlt : i < ds.getCount)
    (hlk : List.lookup k expected = some v)
    (hnull : v = JsVal.undef ∨ v = JsVal.jsNull)
    (hmiss : hasProp (ds.data.getD i.toNat []) k = false)
    (hrest : ∀ k2, k2 ≠ k →
      looseEq (getProp expected k2) (getProp (ds.data.getD i.toNat []) k2) = true) :
    ds.atomicReplace i expected next = ds.replace i next ∧
    Cursor.isDirty ⟨.idx i, some expected, some (ds.data.getD i.toNat [])⟩ = true := by
  rw [atomicReplace_valid ds i expected next h0 hlt]
  generalize hA : ds.data.getD i.toNat [] = actual at hmiss hrest ⊢
  have hkey : ∀ k2, looseEq (getProp expected k2) (getProp actual k2) = true := by
    intro k2
    by_cases hk2 : k2 = k
    · subst hk2
      have h1 : getProp expected k2 = v := by simp [getProp, hlk]
      have h2 : getProp actual k2 = JsVal.undef := getProp_of_not_hasProp hmiss
      rw [h1, h2]
      rcases hnull with h | h <;> subst h <;> rfl
    · exact hrest k2 hk2
  have hnd : recordsDiffer expected actual = false := by
    simp only [recordsDiffer, Bool.or_eq_false_iff, List.any_eq_false]
    constructor <;> intro k2 _ <;> simp [hkey k2]
  constructor
  · rw [hnd, if_neg (by simp)]
  · have hmem : k ∈ keys expected := lookup_some_mem_keys hlk
    show recordsDirty expected actual = true
    simp only [recordsDirty, Bool.or_eq_true, List.any_eq_true]
    exact Or.inl ⟨k, hmem, by simp [hmiss]⟩

/-- C10 witness. -/
theorem atomicReplace_vs_isDirty_key_presence_witness :
    SimpleDatasource.atomicReplace ⟨[⟨"a","A"⟩], [[("a", .num 1)]]⟩ 0
        [("a", .num 1), ("b", .jsNull)] [("a", .num 2)] =
      SimpleDatasource.replace ⟨[⟨"a","A"⟩], [[("a", .num 1)]]⟩ 0 [("a", .num 2)] ∧
    Cursor.isDirty ⟨.idx 0, some [("a", .num 1), ("b", .jsNull)],
      some [("a", .num 1)]⟩ = true :=
  atomicReplace_vs_isDirty_key_presence ⟨[⟨"a","A"⟩], [[("a", .num 1)]]⟩ 0
    [("a", .num 1), ("b", .jsNull)] [("a", .num 2)] "b" .jsNull
    (by decide) (by decide) (by decide) (Or.inr rfl) (by decide)
    (by intro k2 hk2
        by_cases ha : k2 = "a"
        · subst ha; decide
        · have h1 : hasProp [("a", JsVal.num 1), ("b", JsVal.jsNull)] k2 = false := by
            simp [hasProp, List.lookup, beq_eq_false_iff_ne.mpr ha,
              beq_eq_false_iff_ne.mpr hk2]
          have h2 : hasProp [("a", JsVal.num 1)] k2 = false := by
            simp [hasProp, List.lookup, beq_eq_false_iff_ne.mpr ha]
          show looseEq (getProp [("a", JsVal.num 1), ("b", JsVal.jsNull)] k2)
            (getProp [("a", JsVal.num 1)] k2) = true
          rw [getProp_of_not_hasProp h1, getProp_of_not_hasProp h2]
          rfl)

/-
  Facts about the engine of setPosition / maybeDiscard / discard.
-/

theorem runCall_maybeDiscard_clean (fuel : Nat) (hfuel : fuel ≠ 0) (h : Handlers)
    (ds : SimpleDatasource) (c : Cursor) (p : Option Pos) (hc : c.isDirty = false) :
    Cursor.runCall fuel h ds c (.maybeDiscardCall p) = ⟨.ok true, ds, c, []⟩ := by
  obtain ⟨f, rfl⟩ : ∃ f, fuel = f + 1 := ⟨fuel - 1, by omega⟩
  simp [Cursor.runCall, hc]

theorem runCall_setPosition_invalid (fuel : Nat) (hfuel : fuel ≠ 0) (h : Handlers)
    (ds : SimpleDatasource) (c : Cursor) (p : Pos) (e : Exn)
    (hv : Cursor.assertValidPosition ds p = some e) :
    Cursor.runCall fuel h ds c (.setPositionCall p) = ⟨.thrown e, ds, c, []⟩ := by
  obtain ⟨f, rfl⟩ : ∃ f, fuel = f + 1 := ⟨fuel - 1, by omega⟩
  simp [Cursor.runCall, hv]

theorem runCall_setPosition_clean (fuel : Nat) (hfuel : 2 ≤ fuel) (h : Handlers)
    (ds : SimpleDatasource) (c : Cursor) (p : Pos)
    (hc : c.isDirty = false) (hv : Cursor.assertValidPosition ds p = none) :
    Cursor.runCall fuel h ds c (.setPositionCall p) =
      (if p ≠ c.position then
        (let m := Cursor.moveInternal ds c p
         ⟨m.out.map (fun _ => true), m.ds, m.cursor, m.events⟩)
      else ⟨.ok true, ds, c, []⟩) := by
  obtain ⟨f, rfl⟩ : ∃ f, fuel = f + 2 := ⟨fuel - 2, by omega⟩
  rw [show f + 2 = (f + 1) + 1 from rfl]
  by_cases hp : p = c.position
  · subst hp
    simp [Cursor.runCall, hv, hc]
  · simp [Cursor.runCall, hv, hc, hp]

theorem assertValidPosition_idx_none (ds : SimpleDatasource) {t : Int}
    (h0 : 0 ≤ t) (hlt : t < ds.getCount) :
    Cursor.assertValidPosition ds (.idx t) = none := by
  simp only [Cursor.assertValidPosition, Cursor.getRowCount]
  rw [if_pos ⟨h0, hlt⟩]

theorem assertValidPosition_none_bounds {ds : SimpleDatasource} {t : Int}
    (hv : Cursor.assertValidPosition ds (.idx t) = none) : 0 ≤ t ∧ t < ds.getCount := by
  simp only [Cursor.assertValidPosition, Cursor.getRowCount] at hv
  by_contra hcon
  rw [if_neg hcon] at hv
  exact Option.noConfusion hv

theorem reload_clean (ds : SimpleDatasource) (c : Cursor) :
    ((Cursor.reloadRecord ds c).2).isDirty = false := by
  unfold Cursor.reloadRecord
  cases c.position with
  | bof => simp [Cursor.isDirty]
  | eof => simp [Cursor.isDirty]
  | new => simp [Cursor.isDirty, recordsDirty_refl]
  | idx i =>
    cases hg : ds.get i with
    | thrown e => simp [Cursor.isDirty, hg, recordsDirty_refl]
    | ok record => simp [Cursor.isDirty, hg, recordsDirty_refl]

theorem moveInternal_valid (ds : SimpleDatasource) (c : Cursor) (p : Pos)
    (hv : Cursor.assertValidPosition ds p = none) :
    (Cursor.moveInternal ds c p).out = .ok () ∧
    (Cursor.moveInternal ds c p).ds = ds ∧
    (Cursor.moveInternal ds c p).cursor.position = p ∧
    (Cursor.moveInternal ds c p).events = [.moveTo c.position p] ∧
    (Cursor.moveInternal ds c p).cursor.isDirty = false := by
  cases p with
  | bof => simp [Cursor.moveInternal, Cursor.reloadRecord, Cursor.isDirty]
  | eof => simp [Cursor.moveInternal, Cursor.reloadRecord, Cursor.isDirty]
  | new => simp [Cursor.moveInternal, Cursor.reloadRecord, Cursor.isDirty, recordsDirty_refl]
  | idx i =>
    obtain ⟨h0, hlt⟩ := assertValidPosition_none_bounds hv
    simp [Cursor.moveInternal, Cursor.reloadRecord, get_valid ds h0 hlt,
      Cursor.isDirty, recordsDirty_refl]

theorem setPosition_clean_eq (h : Handlers) (ds : SimpleDatasource) (c : Cursor) (p : Pos)
    (hclean : c.isDirty = false) (hv : Cursor.assertValidPosition ds p = none) :
    Cursor.setPosition h ds c p =
      (if p = c.position then ⟨.ok (), ds, c, []⟩
       else ⟨.ok (), ds, (Cursor.moveInternal ds c p).cursor,
             (Cursor.moveInternal ds c p).events⟩) := by
  unfold Cursor.setPosition
  rw [runCall_setPosition_clean cursorFuel (by decide) h ds c p hclean hv]
  by_cases hp : p = c.position
  · simp [hp, Outcome.map]
  · have hm := moveInternal_valid ds c p hv
    simp [hp, hm.1, hm.2.1, Outcome.map]

theorem clampTarget_valid (ds : SimpleDatasource) (target : Pos) :
    Cursor.assertValidPosition ds (clampTarget ds target) = none := by
  cases target with
  | bof => rfl
  | eof => rfl
  | new => rfl
  | idx t =>
    simp only [clampTarget, Cursor.getRowCount]
    by_cases h0 : t < 0
    · rw [if_pos h0]; rfl
    · rw [if_neg h0]
      by_cases hge : t ≥ ds.getCount
      · rw [if_pos hge]; rfl
      · rw [if_neg hge]
        exact assertValidPosition_idx_none ds (by omega) (by omega)

theorem clampTarget_of_valid {ds : SimpleDatasource} {p : Pos}
    (hv : Cursor.assertValidPosition ds p = none) : clampTarget ds p = p := by
  cases p with
  | bof => rfl
  | eof => rfl
  | new => rfl
  | idx t =>
    obtain ⟨h0, hlt⟩ := assertValidPosition_none_bounds hv
    simp only [clampTarget, Cursor.getRowCount]
    rw [if_neg (by omega), if_neg (by omega)]

theorem runCall_maybeDiscard_blocked (fuel : Nat) (hfuel : fuel ≠ 0) (h : Handlers)
    (ds : SimpleDatasource) (c : Cursor) (p : Option Pos)
    (hd : c.isDirty = true) (hcr : c.assertCurrentRecord = none)
    (hh : h.beforeDiscard c.position p = false) :
    Cursor.runCall fuel h ds c (.maybeDiscardCall p) =
      ⟨.thrown (.discardBlocked "The BEFORE_DISCARD event was cancelled"), ds, c,
       [.beforeDiscard c.position p]⟩ := by
  obtain ⟨f, rfl⟩ : ∃ f, fuel = f + 1 := ⟨fuel - 1, by omega⟩
  simp [Cursor.runCall, hd, hcr, hh]

/-- The whole moveRelative pipeline for a clean cursor, once the target has
been resolved: clamp, dispatch MOVE_FORWARD and delegate to setPosition. -/
theorem moveRelative_clean_eq (h : Handlers) (ds : SimpleDatasource) (c : Cursor)
    (delta : Int) (target : Pos)
    (hclean : c.isDirty = false)
    (hres : Cursor.resolveMoveTarget ds c delta = .ok target) :
    Cursor.moveRelative h ds c delta =
      (if clampTarget ds target = c.position then
        ⟨.ok true, ds, c, [.moveForward delta (clampTarget ds target)]⟩
      else
        ⟨.ok true, ds, (Cursor.moveInternal ds c (clampTarget ds target)).cursor,
         .moveForward delta (clampTarget ds target) ::
           (Cursor.moveInternal ds c (clampTarget ds target)).events⟩) := by
  have hv := clampTarget_valid ds target
  unfold Cursor.moveRelative
  rw [hres]
  simp only [hv]
  unfold Cursor.maybeDiscard
  rw [runCall_maybeDiscard_clean cursorFuel (by decide) h ds c _ hclean]
  simp only []
  rw [setPosition_clean_eq h ds c (clampTarget ds target) hclean hv]
  by_cases hp : clampTarget ds target = c.position
  · simp [hp]
  · have hm := moveInternal_valid ds c (clampTarget ds target) hv
    simp [hp]

/-- C5: moveRelative resolves its target as specified — from BOF a negative
delta throws IllegalMove; from BOF a positive delta targets delta - 1; from
an integer index the target is index + delta; the target is then clamped to
BOF when negative and to EOF when at or beyond the (known) row count, so
from BOF on an empty datasource moveRelative(1) lands on EOF. -/
theorem moveRelative_resolution_and_clamp (h : Handlers) (ds : SimpleDatasource)
    (c : Cursor) (delta : Int) (hclean : c.isDirty = false) :
    (c.position = .bof → delta < 0 →
      Cursor.moveRelative h ds c delta =
        ⟨.thrown (.illegalMove "Currently at BOF; there is no previous record"), ds, c, []⟩) ∧
    (c.position = .bof → 0 < delta →
      (Cursor.moveRelative h ds c delta).out = .ok true ∧
      (Cursor.moveRelative h ds c delta).cursor.position =
        (if ds.getCount ≤ delta - 1 then .eof else .idx (delta - 1))) ∧
    (∀ i, c.position = .idx i →
      (Cursor.moveRelative h ds c delta).out = .ok true ∧
      (Cursor.moveRelative h ds c delta).cursor.position =
        (if i + delta < 0 then .bof
         else if ds.getCount ≤ i + delta then .eof else .idx (i + delta))) ∧
    (c.position = .bof → delta = 1 → ds.getCount = 0 →
      (Cursor.moveRelative h ds c delta).cursor.position = .eof) := by
  have key : ∀ target, Cursor.resolveMoveTarget ds c delta = .ok target →
      (Cursor.moveRelative h ds c delta).out = .ok true ∧
      (Cursor.moveRelative h ds c delta).cursor.position = clampTarget ds target := by
    intro target hres
    rw [moveRelative_clean_eq h ds c delta target hclean hres]
    by_cases hp : clampTarget ds target = c.position
    · simp [hp]
    · have hm := moveInternal_valid ds c (clampTarget ds target) (clampTarget_valid ds target)
      simp [hp, hm.2.2.1]
  refine ⟨?_, ?_, ?_, ?_⟩
  · intro hpos hneg
    simp [Cursor.moveRelative, Cursor.resolveMoveTarget, hpos, hneg,
      show ¬ delta = 0 by omega]
  · intro hpos hgt
    have hres : Cursor.resolveMoveTarget ds c delta = .ok (.idx (delta - 1)) := by
      simp [Cursor.resolveMoveTarget, hpos, show ¬ delta = 0 by omega,
        show ¬ delta < 0 by omega]
    have hcl : clampTarget ds (.idx (delta - 1)) =
        (if ds.getCount ≤ delta - 1 then Pos.eof else Pos.idx (delta - 1)) := by
      simp only [clampTarget, Cursor.getRowCount]
      rw [if_neg (by omega)]
    have hk := key _ hres
    exact ⟨hk.1, by rw [hk.2, hcl]⟩
  · intro i hpos
    have hres : Cursor.resolveMoveTarget ds c delta = .ok (.idx (i + delta)) := by
      by_cases h0 : delta = 0
      · subst h0; simp [Cursor.resolveMoveTarget, hpos]
      · simp [Cursor.resolveMoveTarget, hpos, h0]
    have hcl : clampTarget ds (.idx (i + delta)) =
        (if i + delta < 0 then Pos.bof
         else if ds.getCount ≤ i + delta then Pos.eof else Pos.idx (i + delta)) := by
      simp only [clampTarget, Cursor.getRowCount]
    have hk := key _ hres
    exact ⟨hk.1, by rw [hk.2, hcl]⟩
  · intro hpos h1 hcount
    subst h1
    have hres : Cursor.resolveMoveTarget ds c 1 = .ok (.idx 0) := by
      simp [Cursor.resolveMoveTarget, hpos]
    have hcl : clampTarget ds (.idx 0) = Pos.eof := by
      simp only [clampTarget, Cursor.getRowCount]
      rw [if_neg (by omega), if_pos (by omega)]
    have hk := key _ hres
    rw [hk.2, hcl]

/-- C5 witness: from BOF over the test datasource (3 rows), moveRelative(1)
lands on index 0. -/
theorem moveRelative_resolution_and_clamp_witness :
    Cursor.start.isDirty = false ∧ Cursor.start.position = .bof ∧
    (Cursor.moveRelative hAllow tds Cursor.start 1).out = .ok true ∧
    (Cursor.moveRelative hAllow tds Cursor.start 1).cursor.position = .idx 0 :=
  ⟨by decide, by decide,
   ((moveRelative_resolution_and_clamp hAllow tds Cursor.start 1 (by decide)).2.1
      (by decide) (by decide)).1,
   by
    have hk := ((moveRelative_resolution_and_clamp hAllow tds Cursor.start 1
      (by decide)).2.1 (by decide) (by decide)).2
    rw [hk]
    decide⟩

/-- C6: moveRelative(0) keeps the target position unchanged but still runs
the discard pipeline: on a dirty cursor whose BEFORE_DISCARD listener
cancels, it throws DiscardBlocked with the cursor and datasource untouched;
on a clean cursor it succeeds (returns true) with the position unchanged. -/
theorem moveRelative_zero_discard_pipeline (h : Handlers) (ds : SimpleDatasource)
    (c : Cursor) (hv : Cursor.assertValidPosition ds c.position = none) :
    (c.isDirty = true → c.position ≠ .bof → c.position ≠ .eof →
      h.beforeDiscard c.position (some c.position) = false →
      Cursor.moveRelative h ds c 0 =
        ⟨.thrown (.discardBlocked "The BEFORE_DISCARD event was cancelled"), ds, c,
         [.beforeDiscard c.position (some c.position)]⟩) ∧
    (c.isDirty = false →
      Cursor.moveRelative h ds c 0 =
        ⟨.ok true, ds, c, [.moveForward 0 c.position]⟩) := by
  have hres : Cursor.resolveMoveTarget ds c 0 = .ok c.position := by
    simp [Cursor.resolveMoveTarget]
  have hcl : clampTarget ds c.position = c.position := clampTarget_of_valid hv
  constructor
  · intro hd hnb hne hh
    have hcr : c.assertCurrentRecord = none := by
      unfold Cursor.assertCurrentRecord
      cases hcp : c.position with
      | bof => exact absurd hcp hnb
      | eof => exact absurd hcp hne
      | new => rfl
      | idx i => rfl
    unfold Cursor.moveRelative
    rw [hres]
    simp only [hcl, hv]
    unfold Cursor.maybeDiscard
    rw [runCall_maybeDiscard_blocked cursorFuel (by decide) h ds c (some c.position) hd hcr hh]
  · intro hcln
    rw [moveRelative_clean_eq h ds c 0 c.position hcln hres, hcl, if_pos rfl]

/-- C6 witness: a dirty cursor on row 1 with a cancelling BEFORE_DISCARD
listener — moveRelative(0) throws DiscardBlocked and leaves everything
untouched. -/
theorem moveRelative_zero_discard_pipeline_witness :
    tCursor1Stuart.isDirty = true ∧
    Cursor.moveRelative hBlockDiscard tds tCursor1Stuart 0 =
      ⟨.thrown (.discardBlocked "The BEFORE_DISCARD event was cancelled"), tds,
       tCursor1Stuart, [.beforeDiscard (.idx 1) (some (.idx 1))]⟩ :=
  ⟨by decide,
   by
    have hk := (moveRelative_zero_discard_pipeline hBlockDiscard tds tCursor1Stuart
      (by decide)).1 (by decide) (by decide) (by decide) (by decide)
    rw [hk]
    decide⟩

theorem runCall_discard_notDirty (fuel : Nat) (hfuel : fuel ≠ 0) (h : Handlers)
    (ds : SimpleDatasource) (c : Cursor) (p : Option Pos)
    (hcr : c.assertCurrentRecord = none) (hnd : c.isDirty = false) :
    Cursor.runCall fuel h ds c (.discardCall p) = ⟨.ok true, ds, c, []⟩ := by
  obtain ⟨f, rfl⟩ : ∃ f, fuel = f + 1 := ⟨fuel - 1, by omega⟩
  simp [Cursor.runCall, hcr, hnd]

theorem runCall_discard_dirty_idx (fuel : Nat) (hfuel : fuel ≠ 0) (h : Handlers)
    (ds : SimpleDatasource) (c : Cursor) (p : Option Pos) (i : Int)
    (hd : c.isDirty = true) (hpos : c.position = .idx i) :
    Cursor.runCall fuel h ds c (.discardCall p) =
      ⟨.ok true, ds, { c with currentRecordValues := some (c.currentRecordAsLoaded.getD []) },
       [.discardEvent (.idx i) p, .modified (.idx i)]⟩ := by
  obtain ⟨f, rfl⟩ : ∃ f, fuel = f + 1 := ⟨fuel - 1, by omega⟩
  have hcr : c.assertCurrentRecord = none := by
    unfold Cursor.assertCurrentRecord
    rw [hpos]
  simp [Cursor.runCall, hcr, hd, hpos]

theorem runCall_discard_dirty_new (fuel : Nat) (hfuel : 3 ≤ fuel) (h : Handlers)
    (ds : SimpleDatasource) (c : Cursor) (p : Option Pos)
    (hd : c.isDirty = true) (hpos : c.position = .new) (hcount : 0 < ds.getCount) :
    Cursor.runCall fuel h ds c (.discardCall p) =
      ⟨.ok true, ds,
       (Cursor.moveInternal ds
         { c with currentRecordValues := some (c.currentRecordAsLoaded.getD []) }
         (.idx (ds.getCount - 1))).cursor,
       .discardEvent .new p ::
         ((Cursor.moveInternal ds
            { c with currentRecordValues := some (c.currentRecordAsLoaded.getD []) }
            (.idx (ds.getCount - 1))).events ++
          [.modified (.idx (ds.getCount - 1))])⟩ := by
  obtain ⟨f, rfl⟩ : ∃ f, fuel = f + 3 := ⟨fuel - 3, by omega⟩
  have hcr : c.assertCurrentRecord = none := by
    unfold Cursor.assertCurrentRecord
    rw [hpos]
  have hc1 : Cursor.isDirty
      { c with currentRecordValues := some (c.currentRecordAsLoaded.getD []) } = false := by
    simp [Cursor.isDirty, recordsDirty_refl]
  have hv : Cursor.assertValidPosition ds (.idx (ds.getCount - 1)) = none :=
    assertValidPosition_idx_none ds (by omega) (by omega)
  have hm := moveInternal_valid ds
    { c with currentRecordValues := some (c.currentRecordAsLoaded.getD []) }
    (.idx (ds.getCount - 1)) hv
  rw [show f + 3 = (f + 2) + 1 from rfl]
  rw [hpos] at hc1 hm
  simp [Cursor.runCall, hcr, hd, hpos, Cursor.getRowCount, hc1, hv, hm.1, hm.2.1,
    hm.2.2.1, Outcome.map]

theorem runCall_discard_dirty_new_empty (fuel : Nat) (hfuel : 2 ≤ fuel) (h : Handlers)
    (ds : SimpleDatasource) (c : Cursor) (p : Option Pos)
    (hd : c.isDirty = true) (hpos : c.position = .new) (hcount : ds.getCount = 0) :
    Cursor.runCall fuel h ds c (.discardCall p) =
      ⟨.thrown (.illegalMove "Invalid position"), ds,
       { c with currentRecordValues := some (c.currentRecordAsLoaded.getD []) },
       [.discardEvent .new p]⟩ := by
  obtain ⟨f, rfl⟩ : ∃ f, fuel = f + 2 := ⟨fuel - 2, by omega⟩
  have hcr : c.assertCurrentRecord = none := by
    unfold Cursor.assertCurrentRecord
    rw [hpos]
  have hv : Cursor.assertValidPosition ds (.idx (ds.getCount - 1)) =
      some (.illegalMove "Invalid position") := by
    simp only [Cursor.assertValidPosition, Cursor.getRowCount]
    rw [if_neg (by omega)]
  rw [show f + 2 = (f + 1) + 1 from rfl]
  simp [Cursor.runCall, hcr, hd, hpos, Cursor.getRowCount, hv]

/-- C7 (amended): for a cursor with a current record, discard() is a no-op
when not dirty; when dirty it replaces currentValues with the loaded
snapshot, emits a non-cancellable DISCARD, repositions to rowCount - 1 if
and only if the position was NEW, and finally emits MODIFIED — except that
when the position is NEW and the row count is zero the repositioning target
-1 fails validation, so IllegalMove is thrown after DISCARD and MODIFIED is
not emitted. -/
theorem discard_behaviour_amended (h : Handlers) (ds : SimpleDatasource) (c : Cursor)
    (hb : c.position ≠ .bof) (he : c.position ≠ .eof) :
    (c.isDirty = false → Cursor.discard h ds c none = ⟨.ok (), ds, c, []⟩) ∧
    (∀ i, c.isDirty = true → c.position = .idx i →
      Cursor.discard h ds c none =
        ⟨.ok (), ds, { c with currentRecordValues := some (c.currentRecordAsLoaded.getD []) },
         [.discardEvent (.idx i) none, .modified (.idx i)]⟩) ∧
    (c.isDirty = true → c.position = .new → 0 < ds.getCount →
      (Cursor.discard h ds c none).out = .ok () ∧
      (Cursor.discard h ds c none).ds = ds ∧
      (Cursor.discard h ds c none).cursor.position = .idx (ds.getCount - 1) ∧
      (Cursor.discard h ds c none).cursor.isDirty = false ∧
      (Cursor.discard h ds c none).events =
        [.discardEvent .new none, .moveTo .new (.idx (ds.getCount - 1)),
         .modified (.idx (ds.getCount - 1))]) ∧
    (c.isDirty = true → c.position = .new → ds.getCount = 0 →
      (Cursor.discard h ds c none).out = .thrown (.illegalMove "Invalid position") ∧
      (Cursor.discard h ds c none).events = [.discardEvent .new none]) := by
  have hcr : c.assertCurrentRecord = none := by
    unfold Cursor.assertCurrentRecord
    cases hcp : c.position with
    | bof => exact absurd hcp hb
    | eof => exact absurd hcp he
    | new => rfl
    | idx i => rfl
  refine ⟨?_, ?_, ?_, ?_⟩
  · intro hnd
    unfold Cursor.discard
    rw [runCall_discard_notDirty cursorFuel (by decide) h ds c none hcr hnd]
    rfl
  · intro i hd hpos
    unfold Cursor.discard
    rw [runCall_discard_dirty_idx cursorFuel (by decide) h ds c none i hd hpos]
    rfl
  · intro hd hpos hcount
    unfold Cursor.discard
    rw [runCall_discard_dirty_new cursorFuel (by decide) h ds c none hd hpos hcount]
    have hv : Cursor.assertValidPosition ds (.idx (ds.getCount - 1)) = none :=
      assertValidPosition_idx_none ds (by omega) (by omega)
    have hm := moveInternal_valid ds
      { c with currentRecordValues := some (c.currentRecordAsLoaded.getD []) }
      (.idx (ds.getCount - 1)) hv
    refine ⟨rfl, rfl, hm.2.2.1, hm.2.2.2.2, ?_⟩
    rw [hm.2.2.2.1]
    simp [hpos]
  · intro hd hpos hcount
    unfold Cursor.discard
    rw [runCall_discard_dirty_new_empty cursorFuel (by decide) h ds c none hd hpos hcount]
    exact ⟨rfl, rfl⟩

/-- C7 witness: a dirty cursor on row 1 — discard resets the working copy,
emits DISCARD then MODIFIED, and does not reposition. -/
theorem discard_behaviour_amended_witness :
    tCursor1Stuart.isDirty = true ∧
    Cursor.discard hAllow tds tCursor1Stuart none =
      ⟨.ok (), tds,
       { tCursor1Stuart with
         currentRecordValues := some (tCursor1Stuart.currentRecordAsLoaded.getD []) },
       [.discardEvent (.idx 1) none, .modified (.idx 1)]⟩ :=
  ⟨by decide,
   (discard_behaviour_amended hAllow tds tCursor1Stuart (by decide) (by decide)).2.1
     1 (by decide) (by decide)⟩

/-- C7 counterexample to the claim as stated: over an empty datasource, a
dirty cursor at NEW — the claim demands a successful discard ending in a
MODIFIED notification, but the code throws IllegalMove (repositioning to
rowCount - 1 = -1) after the DISCARD notification, and emits no MODIFIED. -/
theorem discard_new_empty_counterexample :
    emptyNewDirty.isDirty = true ∧ emptyNewDirty.position = .new ∧
    (Cursor.discard hAllow emptyDs emptyNewDirty none).out =
      .thrown (.illegalMove "Invalid position") ∧
    (Cursor.discard hAllow emptyDs emptyNewDirty none).events =
      [.discardEvent .new none] := by
  decide

theorem replace_valid (ds : SimpleDatasource) (i : Int) (rec : Record)
    (h0 : 0 ≤ i) (hlt : i < ds.getCount) :
    ds.replace i rec =
      ⟨.ok (),
       { ds with data := ds.data.take i.toNat ++ [rec] ++ ds.data.drop (i.toNat + 1) },
       [.rowsUpdate [i]]⟩ := by
  unfold SimpleDatasource.replace
  rw [assertValidRow_none ds h0 (by omega)]

theorem getCount_nonneg (ds : SimpleDatasource) : 0 ≤ ds.getCount := by
  unfold SimpleDatasource.getCount
  exact Int.natCast_nonneg _

theorem moveInternal_cursor_clean (ds : SimpleDatasource) (c : Cursor) (p : Pos) :
    (Cursor.moveInternal ds c p).cursor.isDirty = false := by
  unfold Cursor.moveInternal
  rcases hr : Cursor.reloadRecord ds { c with position := p } with ⟨ro, c2⟩
  have hcl := reload_clean ds { c with position := p }
  rw [hr] at hcl
  cases ro <;> exact hcl

theorem runCall_discard_assertFail (fuel : Nat) (hfuel : fuel ≠ 0) (h : Handlers)
    (ds : SimpleDatasource) (c : Cursor) (p : Option Pos) (e : Exn)
    (hacr : c.assertCurrentRecord = some e) :
    Cursor.runCall fuel h ds c (.discardCall p) = ⟨.thrown e, ds, c, []⟩ := by
  obtain ⟨f, rfl⟩ : ∃ f, fuel = f + 1 := ⟨fuel - 1, by omega⟩
  by_cases hd : c.isDirty = true
  · simp [Cursor.runCall, hacr, hd]
  · simp [Cursor.runCall, hacr, hd]

theorem recordsDirty_iff (n o : Record) :
    recordsDirty n o = true ↔ ∃ k, specDirtyAt n o k := by
  simp only [recordsDirty, Bool.or_eq_true, List.any_eq_true]
  constructor
  · rintro (⟨k, hk, hcond⟩ | ⟨k, hk, hcond⟩)
    · refine ⟨k, ?_⟩
      have hn : hasProp n k = true := (hasProp_iff_mem n k).mpr hk
      by_cases ho : hasProp o k = true
      · right
        refine ⟨hn, ho, ?_⟩
        rw [looseEq_symm]
        simpa [ho] using hcond
      · left
        rw [Bool.not_eq_true] at ho
        rw [hn, ho]
        decide
    · have ho : hasProp o k = true := (hasProp_iff_mem o k).mpr hk
      have hn : hasProp n k = false := by simpa using hcond
      exact ⟨k, Or.inl (by rw [hn, ho]; decide)⟩
  · rintro ⟨k, hdiff | ⟨hn, ho, hne⟩⟩
    · cases hbn : hasProp n k with
      | false =>
        have ho : hasProp o k = true := by
          cases hbo : hasProp o k
          · rw [hbn, hbo] at hdiff
            exact absurd rfl hdiff
          · rfl
        exact Or.inr ⟨k, (hasProp_iff_mem o k).mp ho, by simp [hbn]⟩
      | true =>
        have ho : hasProp o k = false := by
          cases hbo : hasProp o k
          · rfl
          · rw [hbn, hbo] at hdiff
            exact absurd rfl hdiff
        exact Or.inl ⟨k, (hasProp_iff_mem n k).mp hbn, by simp [ho]⟩
    · refine Or.inl ⟨k, (hasProp_iff_mem n k).mp hn, ?_⟩
      rw [looseEq_symm] at hne
      simp [ho, hne]

/-- C8: isDirty is exactly the symmetric per-key loose-equality diff of the
working copy against the loaded snapshot (a key present in only one side,
or present in both with loosely unequal values, makes it dirty); it is
false whenever no record is loaded — in particular right after
construction, right after a successful discard() and right after a
successful save(). -/
theorem isDirty_iff_symmetric_diff (c : Cursor) :
    (c.isDirty = true ↔ ∃ newValues, c.currentRecordValues = some newValues ∧
      ∃ k, specDirtyAt newValues (c.currentRecordAsLoaded.getD []) k) ∧
    (c.currentRecordValues = none → c.isDirty = false) ∧
    Cursor.start.isDirty = false ∧
    (∀ h ds p, (Cursor.discard h ds c p).out = .ok () →
      (Cursor.discard h ds c p).cursor.isDirty = false) ∧
    (∀ h ds s f a q, (Cursor.save h ds c s f a).out = .ok q →
      (Cursor.save h ds c s f a).cursor.isDirty = false) := by
  refine ⟨?_, ?_, by decide, ?_, ?_⟩
  · cases hc : c.currentRecordValues with
    | none => simp [Cursor.isDirty, hc]
    | some nv => simp [Cursor.isDirty, hc, recordsDirty_iff]
  · intro hc
    simp [Cursor.isDirty, hc]
  · intro h ds p hok
    unfold Cursor.discard at hok ⊢
    cases hacr : c.assertCurrentRecord with
    | some e =>
      rw [runCall_discard_assertFail cursorFuel (by decide) h ds c p e hacr] at hok
      simp [Outcome.map] at hok
    | none =>
      cases hd : c.isDirty with
      | false =>
        rw [runCall_discard_notDirty cursorFuel (by decide) h ds c p hacr hd]
        exact hd
      | true =>
        cases hpos : c.position with
        | bof =>
          unfold Cursor.assertCurrentRecord at hacr
          rw [hpos] at hacr
          simp at hacr
        | eof =>
          unfold Cursor.assertCurrentRecord at hacr
          rw [hpos] at hacr
          simp at hacr
        | idx i =>
          rw [runCall_discard_dirty_idx cursorFuel (by decide) h ds c p i hd hpos]
          simp [Cursor.isDirty, recordsDirty_refl]
        | new =>
          rcases eq_or_lt_of_le (getCount_nonneg ds) with hz | hpos2
          · rw [runCall_discard_dirty_new_empty cursorFuel (by decide) h ds c p hd hpos
              hz.symm] at hok
            simp [Outcome.map] at hok
          · rw [runCall_discard_dirty_new cursorFuel (by decide) h ds c p hd hpos hpos2]
            exact moveInternal_cursor_clean ds _ _
  · intro h ds s f a q hok
    unfold Cursor.save at hok ⊢
    cases hacr : c.assertCurrentRecord with
    | some e =>
      rw [hacr] at hok
      simp at hok
    | none =>
      rw [hacr] at hok
      rcases hbr : Cursor.saveToDatasource h ds c f a with ⟨bout, bds, bc, bevs⟩
      rw [hbr] at hok
      dsimp only at hok ⊢
      cases bout with
      | thrown e => simp at hok
      | ok npos =>
        rcases hr : Cursor.reloadRecord bds bc with ⟨ro, c2⟩
        have hc2 : c2.isDirty = false := by
          have hcl := reload_clean bds bc
          rw [hr] at hcl
          exact hcl
        rw [hr] at hok
        dsimp only at hok ⊢
        cases ro with
        | thrown e => simp at hok
        | ok u =>
          dsimp only at hok ⊢
          by_cases hcnd : npos ≠ c2.position ∧ s = false
          · rw [if_pos hcnd] at hok ⊢
            rcases hmv : Cursor.moveInternal bds c2 npos with ⟨mo, mds, mc, mevs⟩
            have hmc : mc.isDirty = false := by
              have hcl := moveInternal_cursor_clean bds c2 npos
              rw [hmv] at hcl
              exact hcl
            rw [hmv] at hok
            dsimp only at hok ⊢
            cases mo with
            | thrown e => simp at hok
            | ok v => exact hmc
          · rw [if_neg hcnd]
            exact hc2

/-- C8 witness: discarding a dirty cursor succeeds and leaves it clean. -/
theorem isDirty_iff_symmetric_diff_witness :
    (Cursor.discard hAllow tds tCursor1Stuart none).out = .ok () ∧
    (Cursor.discard hAllow tds tCursor1Stuart none).cursor.isDirty = false :=
  ⟨by decide,
   (isDirty_iff_symmetric_diff tCursor1Stuart).2.2.2.1 hAllow tds none (by decide)⟩

/-- C9: with a known row count of zero, moveLast computes the target
rowCount - 1 = -1, which fails position validation inside setPosition, so
IllegalMove is thrown and the cursor (in particular its position) is left
unchanged — it is not moved to BOF. -/
theorem moveLast_empty_illegal (h : Handlers) (ds : SimpleDatasource) (c : Cursor)
    (hcount : ds.getCount = 0) :
    Cursor.moveLast h ds c =
      ⟨.thrown (.illegalMove "Invalid position"), ds, c, [.moveLastEvent (.idx (-1))]⟩ := by
  have hv : Cursor.assertValidPosition ds (.idx (ds.getCount - 1)) =
      some (.illegalMove "Invalid position") := by
    simp [Cursor.assertValidPosition, Cursor.getRowCount]
    omega
  simp only [Cursor.moveLast, Cursor.getRowCount, Cursor.setPosition]
  rw [runCall_setPosition_invalid cursorFuel (by decide) h ds c _ _ hv]
  simp [hcount, Outcome.map]

/-- C9 witness. -/
theorem moveLast_empty_illegal_witness :
    SimpleDatasource.getCount ⟨[⟨"id","ID"⟩], []⟩ = 0 ∧
    Cursor.moveLast hAllow ⟨[⟨"id","ID"⟩], []⟩ Cursor.start =
      ⟨.thrown (.illegalMove "Invalid position"), ⟨[⟨"id","ID"⟩], []⟩, Cursor.start,
       [.moveLastEvent (.idx (-1))]⟩ :=
  ⟨by decide, moveLast_empty_illegal hAllow ⟨[⟨"id","ID"⟩], []⟩ Cursor.start (by decide)⟩

/-
  The save protocol.
-/

theorem saveToDatasource_cm (h : Handlers) (ds : SimpleDatasource) (c : Cursor)
    (a : Option Pos) (p : Int)
    (hpos : c.position = .idx p) (h0 : 0 ≤ p) (hlt : p < ds.getCount)
    (hdiff : recordsDiffer (c.currentRecordAsLoaded.getD [])
      (ds.data.getD p.toNat []) = true) :
    Cursor.saveToDatasource h ds c false a =
      (if h.beforeOverwrite (.idx p) a then
        ⟨.ok (.idx p),
         { ds with data := ds.data.take p.toNat ++ [c.currentRecordValues.getD []] ++
             ds.data.drop (p.toNat + 1) },
         c,
         [.beforeOverwrite (.idx p) a, .dsEvent (.rowsUpdate [p]), .overwrite (.idx p)]⟩
      else ⟨.thrown .overwriteBlocked, ds, c, [.beforeOverwrite (.idx p) a]⟩) := by
  have har : ds.atomicReplace p (c.currentRecordAsLoaded.getD [])
      (c.currentRecordValues.getD []) =
      ⟨.thrown (.concurrentModification (ds.data.getD p.toNat [])), ds, []⟩ := by
    rw [atomicReplace_valid ds p _ _ h0 hlt, if_pos hdiff]
  have hrep := replace_valid ds p (c.currentRecordValues.getD []) h0 hlt
  unfold Cursor.saveToDatasource
  rw [hpos]
  dsimp only
  rw [if_neg (show ¬ (false = true) by decide)]
  rw [har]
  dsimp only
  by_cases hov : h.beforeOverwrite (.idx p) a = true
  · rw [if_pos hov, if_pos hov]
    rw [hrep]
    rfl
  · rw [if_neg hov, if_neg hov]

/-- C2: when save() (without forceOverwrite) hits ConcurrentModification, a
cancellable BEFORE_OVERWRITE is raised; if cancelled, save throws
OverwriteBlocked with the datasource and cursor untouched; if allowed, the
record at the cursor position is forcibly replaced with currentValues and
a non-cancellable OVERWRITE is emitted.  In the two-cursor scenario (both
on row 1 = James; the first saved Stuart; the second tries to save
Jonathan), the blocked save leaves Stuart in place and the allowed save
installs Jonathan. -/
theorem save_concurrent_overwrite (h : Handlers) (ds : SimpleDatasource) (c : Cursor)
    (s : Bool) (a : Option Pos) (p : Int)
    (hpos : c.position = .idx p) (h0 : 0 ≤ p) (hlt : p < ds.getCount)
    (hdiff : recordsDiffer (c.currentRecordAsLoaded.getD [])
      (ds.data.getD p.toNat []) = true) :
    (h.beforeOverwrite (.idx p) a = false →
      Cursor.save h ds c s false a =
        ⟨.thrown .overwriteBlocked, ds, c, [.beforeOverwrite (.idx p) a]⟩) ∧
    (h.beforeOverwrite (.idx p) a = true →
      (Cursor.save h ds c s false a).out = .ok (.idx p) ∧
      (Cursor.save h ds c s false a).ds =
        (ds.replace p (c.currentRecordValues.getD [])).ds ∧
      (Cursor.save h ds c s false a).events =
        [.beforeOverwrite (.idx p) a, .dsEvent (.rowsUpdate [p]),
         .overwrite (.idx p), .saveEvent (.idx p)]) ∧
    ((Cursor.save hBlockOverwrite tDsAfterStuart tCursor1Jonathan false false none).out =
        .thrown .overwriteBlocked ∧
      tDsAfterStuart.get 1 = .ok [("id", .num 2), ("name", .str "Stuart")] ∧
      (Cursor.save hBlockOverwrite tDsAfterStuart tCursor1Jonathan false false none).ds.get 1 =
        .ok [("id", .num 2), ("name", .str "Stuart")]) ∧
    ((Cursor.save hAllow tDsAfterStuart tCursor1Jonathan false false none).out =
        .ok (.idx 1) ∧
      (Cursor.save hAllow tDsAfterStuart tCursor1Jonathan false false none).ds.get 1 =
        .ok [("id", .num 2), ("name", .str "Jonathan")] ∧
      CursorEvent.overwrite (.idx 1) ∈
        (Cursor.save hAllow tDsAfterStuart tCursor1Jonathan false false none).events) := by
  have hacr : c.assertCurrentRecord = none := by
    unfold Cursor.assertCurrentRecord
    rw [hpos]
  have hbr := saveToDatasource_cm h ds c a p hpos h0 hlt hdiff
  refine ⟨?_, ?_, by decide, by decide⟩
  · intro hov
    unfold Cursor.save
    rw [hacr]
    dsimp only
    rw [hbr, if_neg (by simp [hov])]
  · intro hov
    unfold Cursor.save
    rw [hacr]
    dsimp only
    rw [hbr, if_pos hov]
    dsimp only
    have hlen : ({ ds with data := ds.data.take p.toNat ++ [c.currentRecordValues.getD []] ++ ds.data.drop (p.toNat + 1) } : SimpleDatasource).getCount = ds.getCount := by
      unfold SimpleDatasource.getCount
      have hl : (ds.data.take p.toNat ++ [c.currentRecordValues.getD []] ++ ds.data.drop (p.toNat + 1)).length = ds.data.length := by
        unfold SimpleDatasource.getCount at hlt
        simp only [List.length_append, List.length_take, List.length_drop,
          List.length_singleton]
        omega
      rw [hl]
    rcases hr : Cursor.reloadRecord { ds with data := ds.data.take p.toNat ++ [c.currentRecordValues.getD []] ++ ds.data.drop (p.toNat + 1) } c with ⟨ro, c2⟩
    have hro : ro = .ok () ∧ c2.position = .idx p := by
      have hv : Cursor.assertValidPosition { ds with data := ds.data.take p.toNat ++ [c.currentRecordValues.getD []] ++ ds.data.drop (p.toNat + 1) } (.idx p) = none :=
        assertValidPosition_idx_none _ h0 (by rw [hlen]; exact hlt)
      obtain ⟨hq0, hqlt⟩ := assertValidPosition_none_bounds hv
      have hget := get_valid { ds with data := ds.data.take p.toNat ++ [c.currentRecordValues.getD []] ++ ds.data.drop (p.toNat + 1) } hq0 hqlt
      unfold Cursor.reloadRecord at hr
      rw [hpos] at hr
      dsimp only at hr
      rw [hget] at hr
      dsimp only at hr
      obtain ⟨h1, h2⟩ := Prod.mk.injEq .. ▸ hr
      constructor
      · exact h1.symm
      · rw [← h2]
    obtain ⟨hro1, hro2⟩ := hro
    subst hro1
    dsimp only
    rw [if_neg (by simp [hro2])]
    rw [replace_valid ds p (c.currentRecordValues.getD []) h0 hlt]
    exact ⟨rfl, rfl, rfl⟩

/-- C2 witness: the cancelled overwrite in the two-cursor scenario, via the
general theorem. -/
theorem save_concurrent_overwrite_witness :
    Cursor.save hBlockOverwrite tDsAfterStuart tCursor1Jonathan false false none =
      ⟨.thrown .overwriteBlocked, tDsAfterStuart, tCursor1Jonathan,
       [.beforeOverwrite (.idx 1) none]⟩ :=
  (save_concurrent_overwrite hBlockOverwrite tDsAfterStuart tCursor1Jonathan false none 1
    (by decide) (by decide) (by decide) (by decide)).1 (by decide)

theorem getCount_append_one (ds : SimpleDatasource) (cur : Record) :
    ({ ds with data := ds.data ++ [cur] } : SimpleDatasource).getCount = ds.getCount + 1 := by
  unfold SimpleDatasource.getCount
  simp only [List.length_append, List.length_singleton]
  omega

theorem saveToDatasource_new (h : Handlers) (ds : SimpleDatasource) (c : Cursor)
    (f : Bool) (a : Option Pos) (cur : Record)
    (hpos : c.position = .new) (hcur : c.currentRecordValues = some cur) :
    Cursor.saveToDatasource h ds c f a =
      ⟨.ok (.idx ds.getCount), { ds with data := ds.data ++ [cur] }, c,
       [.dsEvent (.rowsInsert [ds.getCount])]⟩ := by
  have htn : (ds.getCount).toNat = ds.data.length := by
    unfold SimpleDatasource.getCount
    exact Int.toNat_natCast _
  have hins : ds.insert ds.getCount cur =
      ⟨.ok (), { ds with data := ds.data ++ [cur] }, [.rowsInsert [ds.getCount]]⟩ := by
    unfold SimpleDatasource.insert
    rw [assertValidRow_none ds (getCount_nonneg ds) (le_refl _)]
    rw [htn]
    simp [List.take_length, List.drop_length]
  have hadd : ds.add cur =
      ⟨.ok ds.getCount, { ds with data := ds.data ++ [cur] }, [.rowsInsert [ds.getCount]]⟩ := by
    unfold SimpleDatasource.add
    dsimp only
    rw [hins]
    rfl
  have hnotify : Cursor.handleDataSourceRowInsert { ds with data := ds.data ++ [cur] } c
      [ds.getCount] = ⟨.ok (), { ds with data := ds.data ++ [cur] }, c, []⟩ := by
    unfold Cursor.handleDataSourceRowInsert
    rw [hpos]
    dsimp only [List.foldl]
    rw [if_neg (by simp)]
  unfold Cursor.saveToDatasource
  rw [hpos]
  dsimp only
  rw [hcur, Option.getD_some]
  rw [hadd]
  dsimp only
  rw [hnotify]
  rfl

/-- C4: save() from NEW adds exactly one row to the datasource and returns
the index of the new record (the previous row count); the cursor then rests on
that index, unless suppressMoveTo is set, in which case the position stays
NEW and getCurrentValues() afterwards returns an empty record. -/
theorem save_from_new (h : Handlers) (ds : SimpleDatasource) (c : Cursor)
    (s f : Bool) (a : Option Pos) (cur : Record)
    (hpos : c.position = .new) (hcur : c.currentRecordValues = some cur) :
    (Cursor.save h ds c s f a).out = .ok (.idx ds.getCount) ∧
    (Cursor.save h ds c s f a).ds.getCount = ds.getCount + 1 ∧
    (s = false → (Cursor.save h ds c s f a).cursor.position = .idx ds.getCount) ∧
    (s = true → (Cursor.save h ds c s f a).cursor.position = .new ∧
      Cursor.getCurrentValues (Cursor.save h ds c s f a).cursor = .ok []) := by
  have hacr : c.assertCurrentRecord = none := by
    unfold Cursor.assertCurrentRecord
    rw [hpos]
  have hbr := saveToDatasource_new h ds c f a cur hpos hcur
  have hrl : Cursor.reloadRecord { ds with data := ds.data ++ [cur] } c =
      (.ok (), { c with currentRecordValues := some [], currentRecordAsLoaded := some [] }) := by
    unfold Cursor.reloadRecord
    rw [hpos]
  have hv2 : Cursor.assertValidPosition { ds with data := ds.data ++ [cur] }
      (.idx ds.getCount) = none :=
    assertValidPosition_idx_none _ (getCount_nonneg ds)
      (by rw [getCount_append_one]; omega)
  have hm := moveInternal_valid { ds with data := ds.data ++ [cur] }
    { c with currentRecordValues := some [], currentRecordAsLoaded := some [] }
    (.idx ds.getCount) hv2
  unfold Cursor.save
  rw [hacr]
  rw [hbr]
  dsimp only
  rw [hrl]
  dsimp only
  cases s with
  | false =>
    rw [if_pos ⟨by rw [hpos]; simp, rfl⟩]
    rcases hmv : Cursor.moveInternal { ds with data := ds.data ++ [cur] }
      { c with currentRecordValues := some [], currentRecordAsLoaded := some [] }
      (.idx ds.getCount) with ⟨mo, mds, mc, mevs⟩
    rw [hmv] at hm
    obtain ⟨hm1, hm2, hm3, _, _⟩ := hm
    dsimp only at hm1 hm2 hm3
    subst hm1
    dsimp only
    refine ⟨rfl, ?_, fun _ => hm3, fun hcontra => absurd hcontra (by decide)⟩
    rw [hm2, getCount_append_one]
  | true =>
    rw [if_neg (by simp)]
    refine ⟨rfl, getCount_append_one ds cur,
      fun hcontra => absurd hcontra (by decide), fun _ => ⟨hpos, ?_⟩⟩
    unfold Cursor.getCurrentValues Cursor.assertCurrentRecord
    rw [hpos]
    rfl

/-- C4 witness: saving a dirty NEW cursor over the test datasource, with
and without suppressMoveTo. -/
theorem save_from_new_witness :
    tCursorNewDirty.position = .new ∧
    (Cursor.save hAllow tds tCursorNewDirty false false none).out = .ok (.idx 3) ∧
    (Cursor.save hAllow tds tCursorNewDirty false false none).ds.getCount = 4 ∧
    (Cursor.save hAllow tds tCursorNewDirty false false none).cursor.position = .idx 3 ∧
    (Cursor.save hAllow tds tCursorNewDirty true false none).cursor.position = .new ∧
    Cursor.getCurrentValues (Cursor.save hAllow tds tCursorNewDirty true false none).cursor =
      .ok [] := by
  have h1 := save_from_new hAllow tds tCursorNewDirty false false none
    [("id", .str "foo"), ("name", .str "bar")] (by decide) (by decide)
  have h2 := save_from_new hAllow tds tCursorNewDirty true false none
    [("id", .str "foo"), ("name", .str "bar")] (by decide) (by decide)
  exact ⟨by decide, h1.1, h1.2.1, h1.2.2.1 rfl, (h2.2.2.2 rfl).1, (h2.2.2.2 rfl).2⟩

/-- C3: evaluation of the code at the failing input.  A dirty cursor on row
1 (name edited from James to Stuart, unsaved) receives ROWS_INSERT for
index 0 from the shared datasource.  The position is shifted to 2 and no
BEFORE_DISCARD is raised — but the in-progress edit is silently lost:
moveInternal reloads the record from the datasource, so currentValues is
reset to the clean James record and the cursor is no longer dirty,
contradicting the claim (and the source comment) that the unsaved
edits are preserved. -/
theorem insert_reindex_loses_edit :
    tCursor1Stuart.isDirty = true ∧
    Cursor.getCurrentValues tCursor1Stuart =
      .ok [("id", .num 2), ("name", .str "Stuart")] ∧
    (Cursor.dsInsertAndNotify tds tCursor1Stuart 0
        [("id", .num 9), ("name", .str "Zed")]).cursor.position = .idx 2 ∧
    (Cursor.dsInsertAndNotify tds tCursor1Stuart 0
        [("id", .num 9), ("name", .str "Zed")]).cursor.currentRecordValues =
      some [("id", .num 2), ("name", .str "James")] ∧
    (Cursor.dsInsertAndNotify tds tCursor1Stuart 0
        [("id", .num 9), ("name", .str "Zed")]).cursor.isDirty = false ∧
    (Cursor.dsInsertAndNotify tds tCursor1Stuart 0
        [("id", .num 9), ("name", .str "Zed")]).events =
      [.dsEvent (.rowsInsert [0]), .moveTo (.idx 1) (.idx 2)] := by
  decide

end QwirxData
